import Mathlib

/-!
# simplewebsocket: frame codec, handshake and read loop

A shallow embedding of `protocol.go`, `conn.go` and `server.go`.

* A Go `byte` is a `Nat` below 256; a `[]byte` or a `string` is a `List Nat`.
* A Go slice has a length and a capacity.  A function that takes a slice takes
  its visible bytes (`frames`) and the bytes of its backing array that lie
  between the length and the capacity (`spare`), so that `cap = len + spare`.
* A Go call ends in one of three ways: it returns, it returns a non-nil `error`,
  or it panics at run time.  The last two are the two kinds of `Fault`.
* `uint64` and `int` are 64 bits wide.  Wrap-around is written out wherever a
  value can reach the width: the declared payload length and what is computed
  from it.  The other integers are offsets of at most 14 and lengths and
  indices of strings and slices held in memory, all far below `2 ^ 63`.
-/

namespace Websocket

/-! ## Outcomes -/

/-- The ways a call can fail. -/
inductive Fault where
  /-- The error `decodeFrames Error: No payload in frames`. -/
  | noPayload
  /-- The error `decodeFrames Error: Frame length does not match payload length`. -/
  | lengthMismatch
  /-- The run-time panic `slice bounds out of range`. -/
  | sliceBounds
  /-- The run-time panic of a method call through a nil pointer. -/
  | nilDeref
  deriving DecidableEq, Repr

deriving instance DecidableEq for Except

/-- Whether a fault is a run-time panic, as opposed to a returned `error`. -/
def Fault.isPanic : Fault → Bool
  | .noPayload => false
  | .lengthMismatch => false
  | .sliceBounds => true
  | .nilDeref => true

/-! ## Machine integers -/

/-- The conversion `int(x)` of a `uint64` to the 64-bit signed `int`. -/
def toInt (x : Nat) : Int :=
  if x % 2 ^ 64 < 2 ^ 63 then ((x % 2 ^ 64 : Nat) : Int) else ((x % 2 ^ 64 : Nat) : Int) - 2 ^ 64

/-- Wrap-around of a 64-bit signed `int` result. -/
def wrapInt (z : Int) : Int :=
  (z + 2 ^ 63) % 2 ^ 64 - 2 ^ 63

/-- The two bytes written by `binary.BigEndian.PutUint16(l, uint16(n))`. -/
def putUint16 (n : Nat) : List Nat :=
  [n / 2 ^ 8 % 256, n % 256]

/-- The eight bytes written by `binary.BigEndian.PutUint64(l, uint64(n))`. -/
def putUint64 (n : Nat) : List Nat :=
  [n / 2 ^ 56 % 256, n / 2 ^ 48 % 256, n / 2 ^ 40 % 256, n / 2 ^ 32 % 256,
   n / 2 ^ 24 % 256, n / 2 ^ 16 % 256, n / 2 ^ 8 % 256, n % 256]

/-- The value read by `binary.BigEndian.Uint16` and `binary.BigEndian.Uint64`:
the bytes of `b`, most significant first. -/
def bigEndian (b : List Nat) : Nat :=
  b.foldl (fun acc x => acc * 256 + x) 0

/-! ## Slices -/

/-- The slice expression `a[lo:hi]` over a backing array `mem` (the bytes up to
the capacity): it panics unless `lo ≤ hi ≤ cap`. -/
def slice (mem : List Nat) (lo hi : Nat) : Except Fault (List Nat) :=
  if lo ≤ hi ∧ hi ≤ mem.length then .ok ((mem.drop lo).take (hi - lo)) else .error .sliceBounds

/-- The string slice `s[lo:hi]` with `int` indices: it panics unless
`0 ≤ lo ≤ hi ≤ len(s)`. -/
def sliceStr (s : List Nat) (lo hi : Int) : Except Fault (List Nat) :=
  if 0 ≤ lo ∧ lo ≤ hi ∧ hi ≤ (s.length : Int) then
    .ok ((s.drop lo.toNat).take (hi.toNat - lo.toNat))
  else .error .sliceBounds

/-! ## protocol.go: frame types -/

def TextFrame : Nat := 1
def BinaryFrame : Nat := 2
def CloseFrame : Nat := 8
def PingFrame : Nat := 9
def PongFrame : Nat := 10

/-! ## protocol.go: decodeFrames -/

/-- The unmasking loop of `decodeFrames`, from index `i` on:
`payload[i] = b ^ maskBytes[i%4]`. -/
def unmaskFrom (maskBytes : List Nat) : Nat → List Nat → List Nat
  | _, [] => []
  | i, b :: rest => (b ^^^ maskBytes.getD (i % 4) 0) :: unmaskFrom maskBytes (i + 1) rest

/-- The unmasking loop of `decodeFrames` over a whole payload. -/
def unmask (payload maskBytes : List Nat) : List Nat :=
  unmaskFrom maskBytes 0 payload

/-- What a successful `decodeFrames` leaves behind: the returned payload, and
the backing array of `frames` after the unmasking, which is done in place. -/
structure Decoded where
  payload : List Nat
  mem : List Nat
  deriving DecidableEq, Repr

/-- The function `decodeFrames` of `protocol.go`. -/
def decodeFrames (frames spare : List Nat) : Except Fault Decoded :=
  let mem := frames ++ spare
  let payloadStart : Nat := 2
  if frames.length < 3 then .error .noPayload
  else
    let b2 := frames.getD 1 0
    let mask := b2 &&& 0x80
    let lengthByte := b2 &&& 0x7f
    if frames.length < payloadStart + 4 then .error .lengthMismatch
    else do
      let (length, payloadStart) ←
        (if lengthByte < 126 then pure (lengthByte, payloadStart)
         else if lengthByte = 126 then do
           let l ← slice mem 2 4
           pure (bigEndian l, payloadStart + 2)
         else if lengthByte = 127 then do
           let l ← slice mem 2 10
           pure (bigEndian l, payloadStart + 8)
         else pure (0, payloadStart) : Except Fault (Nat × Nat))
      let (maskBytes, payloadStart) ←
        (if mask ≠ 0 then do
           let k ← slice mem payloadStart (payloadStart + 4)
           pure (k, payloadStart + 4)
         else pure ([0, 0, 0, 0], payloadStart) : Except Fault (List Nat × Nat))
      if (frames.length : Int) < wrapInt (toInt payloadStart + toInt length) then
        .error .lengthMismatch
      else do
        let payload ← slice mem payloadStart ((payloadStart + length) % 2 ^ 64)
        if mask ≠ 0 then
          let plain := unmask payload maskBytes
          pure ⟨plain, mem.take payloadStart ++ plain ++ mem.drop (payloadStart + plain.length)⟩
        else pure ⟨payload, mem⟩

/-! ## protocol.go: encodeFrames -/

/-- The function `encodeFrames` of `protocol.go`.  In its last branch the source
sets `b2 = b2 | 127` and appends the eight bytes of the length; `b2` itself is
not appended there. -/
def encodeFrames (msg : List Nat) : List Nat :=
  let b1 := 0x80
  let b2 := 0x0
  let buf : List Nat := []
  let b1 := b1 ||| 0x1
  let buf := buf ++ [b1]
  let length := msg.length % 2 ^ 64
  let buf :=
    if length < 126 then
      let b2 := b2 ||| length % 256
      buf ++ [b2]
    else if length < 65536 then
      let b2 := b2 ||| 126
      let buf := buf ++ [b2]
      let l := putUint16 (length % 2 ^ 16)
      buf ++ l
    else
      let l := putUint64 length
      buf ++ l
  buf ++ msg

/-! ## The Go standard library: strings, crypto/sha1, encoding/base64 -/

/-- The bytes of an ASCII string literal. -/
def str (s : String) : List Nat :=
  s.toList.map Char.toNat

/-- The search of `strings.Index(s, sub)` from offset `i` of the original
string on: the index of the first occurrence of `sub`, or `-1`. -/
def stringsIndexFrom (sub : List Nat) : List Nat → Nat → Int
  | [], i => if sub = [] then (i : Int) else -1
  | c :: t, i =>
    if (c :: t).take sub.length = sub then (i : Int) else stringsIndexFrom sub t (i + 1)

/-- The function `strings.Index`. -/
def stringsIndex (s sub : List Nat) : Int :=
  stringsIndexFrom sub s 0

/-- The function `strings.Trim` for a cutset of ASCII characters: the leading
and the trailing bytes that belong to `cutset` are removed. -/
def stringsTrim (s cutset : List Nat) : List Nat :=
  ((s.dropWhile (fun c => decide (c ∈ cutset))).reverse.dropWhile
    (fun c => decide (c ∈ cutset))).reverse

/-- The four bytes of a 32-bit word, most significant first. -/
def putUint32 (n : Nat) : List Nat :=
  [n / 2 ^ 24 % 256, n / 2 ^ 16 % 256, n / 2 ^ 8 % 256, n % 256]

/-- Rotation of a 32-bit word to the left by `n` bits. -/
def rotl32 (x n : Nat) : Nat :=
  ((x <<< n) ||| (x >>> (32 - n))) % 2 ^ 32

/-- The five 32-bit words of a SHA-1 chaining value. -/
structure Sha1State where
  a : Nat
  b : Nat
  c : Nat
  d : Nat
  e : Nat
  deriving DecidableEq, Repr

/-- The initial chaining value of SHA-1 (RFC 3174, section 6.1). -/
def sha1Start : Sha1State :=
  ⟨0x67452301, 0xEFCDAB89, 0x98BADCFE, 0x10325476, 0xC3D2E1F0⟩

/-- The padding of SHA-1: the byte `0x80`, zero bytes up to 56 modulo 64, and
the length of the message in bits as 8 big-endian bytes. -/
def sha1Pad (msg : List Nat) : List Nat :=
  msg ++ [0x80] ++ List.replicate ((119 - msg.length % 64) % 64) 0 ++
    putUint64 (8 * msg.length % 2 ^ 64)

/-- The first `count` consecutive chunks of `n` elements of a list. -/
def chunks (n : Nat) : Nat → List Nat → List (List Nat)
  | 0, _ => []
  | count + 1, l => l.take n :: chunks n count (l.drop n)

/-- The message schedule of SHA-1 extended by `k` further words:
`w[t] = rotl(w[t-3] ^ w[t-8] ^ w[t-14] ^ w[t-16], 1)`. -/
def sha1Extend : Nat → List Nat → List Nat
  | 0, w => w
  | k + 1, w =>
    let t := w.length
    sha1Extend k (w ++ [rotl32 (w.getD (t - 3) 0 ^^^ w.getD (t - 8) 0 ^^^
      w.getD (t - 14) 0 ^^^ w.getD (t - 16) 0) 1])

/-- The round function of SHA-1 at round `t`. -/
def sha1F (t b c d : Nat) : Nat :=
  if t < 20 then (b &&& c) ||| ((b ^^^ 0xFFFFFFFF) &&& d)
  else if t < 40 then b ^^^ c ^^^ d
  else if t < 60 then (b &&& c) ||| (b &&& d) ||| (c &&& d)
  else b ^^^ c ^^^ d

/-- The round constant of SHA-1 at round `t`. -/
def sha1K (t : Nat) : Nat :=
  if t < 20 then 0x5A827999
  else if t < 40 then 0x6ED9EBA1
  else if t < 60 then 0x8F1BBCDC
  else 0xCA62C1D6

/-- One round of SHA-1 on the pair of the round number and its schedule word. -/
def sha1Round (s : Sha1State) (tw : Nat × Nat) : Sha1State :=
  let temp := (rotl32 s.a 5 + sha1F tw.1 s.b s.c s.d + s.e + sha1K tw.1 + tw.2) % 2 ^ 32
  ⟨temp, s.a, rotl32 s.b 30, s.c, s.d⟩

/-- The compression of one 64-byte block into the chaining value. -/
def sha1Block (h : Sha1State) (block : List Nat) : Sha1State :=
  let w := sha1Extend 64 ((chunks 4 16 block).map bigEndian)
  let s := w.enum.foldl sha1Round h
  ⟨(h.a + s.a) % 2 ^ 32, (h.b + s.b) % 2 ^ 32, (h.c + s.c) % 2 ^ 32,
   (h.d + s.d) % 2 ^ 32, (h.e + s.e) % 2 ^ 32⟩

/-- The 20-byte SHA-1 digest of a message: what `h.Sum(nil)` returns for a
`sha1.New()` hash `h` that was written the message. -/
def sha1 (msg : List Nat) : List Nat :=
  let p := sha1Pad msg
  let h := (chunks 64 (p.length / 64) p).foldl sha1Block sha1Start
  putUint32 h.a ++ putUint32 h.b ++ putUint32 h.c ++ putUint32 h.d ++ putUint32 h.e

/-- The alphabet of the standard base64 encoding (RFC 4648). -/
def base64Alphabet : List Nat :=
  str "ABCDEFGHIJKLMNOPQRSTUVWXYZabcdefghijklmnopqrstuvwxyz0123456789+/"

/-- The base64 character of a 6-bit value. -/
def base64Char (i : Nat) : Nat :=
  base64Alphabet.getD (i % 64) 0

/-- The function `base64.StdEncoding.EncodeToString`, with `=` (61) padding. -/
def base64Encode : List Nat → List Nat
  | [] => []
  | [x] => [base64Char (x / 4), base64Char (x % 4 * 16), 61, 61]
  | [x, y] => [base64Char (x / 4), base64Char (x % 4 * 16 + y / 16), base64Char (y % 16 * 4), 61]
  | x :: y :: z :: rest =>
    base64Char (x / 4) :: base64Char (x % 4 * 16 + y / 16) ::
      base64Char (y % 16 * 4 + z / 64) :: base64Char (z % 64) :: base64Encode rest

/-! ## Sockets, callbacks and the server -/

/-- What `conn.Read(buf)` returns: the bytes it stored at the front of `buf`
(at most `len(buf)` of them) and whether its error is non-nil. -/
structure ReadResult where
  data : List Nat
  err : Bool
  deriving DecidableEq, Repr

/-- The buffer after `conn.Read(buf)` stored `data` at its front. -/
def readInto (buf data : List Nat) : List Nat :=
  data ++ buf.drop data.length

/-- What a connection does that can be observed from outside, in order. -/
inductive Event where
  /-- The call `conn.connection.Write(bytes)`. -/
  | write (bytes : List Nat)
  /-- The call `conn.connection.Close()`. -/
  | closeSocket
  /-- A call of `s.logger.Print`. -/
  | log
  /-- The call of `s.handleConnected`. -/
  | connected
  /-- The call of `s.handleDisconnected`. -/
  | disconnected
  /-- The call of `s.handleTextMsg` with the message. -/
  | textMsg (msg : List Nat)
  /-- The call of `s.handleBinMsg` with the message. -/
  | binMsg (msg : List Nat)
  /-- The call of `s.handlePong`. -/
  | pong
  deriving DecidableEq, Repr

/-- The byte slices written to the socket among a list of events. -/
def writesOf : List Event → List (List Nat)
  | [] => []
  | .write bytes :: rest => bytes :: writesOf rest
  | _ :: rest => writesOf rest

/-- The type `Server` of `server.go`: for each callback and for the logger,
whether the field is non-nil, and the keys of the map `connSet`.  A connection
(a `*Conn`) is identified by a number. -/
structure Server where
  handleConnected : Bool
  handleDisconnected : Bool
  handleTextMsg : Bool
  handleBinMsg : Bool
  handlePong : Bool
  connSet : List Nat
  logger : Bool
  deriving DecidableEq, Repr

/-- The function `CreateServer`: no callback is set and `connSet` is an empty map. -/
def CreateServer (logger : Bool) : Server :=
  { handleConnected := false, handleDisconnected := false, handleTextMsg := false,
    handleBinMsg := false, handlePong := false, connSet := [], logger := logger }

def HandleConnected (s : Server) (handler : Bool) : Server :=
  { s with handleConnected := handler }

def HandleDisconnected (s : Server) (handler : Bool) : Server :=
  { s with handleDisconnected := handler }

def HandleTextMsg (s : Server) (handler : Bool) : Server :=
  { s with handleTextMsg := handler }

def HandleBinMsg (s : Server) (handler : Bool) : Server :=
  { s with handleBinMsg := handler }

def HandlePong (s : Server) (handler : Bool) : Server :=
  { s with handlePong := handler }

/-- The events of `if handler != nil { handler(...) }`. -/
def callIfSet (handler : Bool) (e : Event) : List Event :=
  if handler then [e] else []

/-! ## protocol.go: the handshake -/

def keyGUID : List Nat := str "258EAFA5-E914-47DA-95CA-C5AB0DC85B11"

/-- The function `getKey` of `protocol.go`. -/
def getKey (resp : List Nat) : Except Fault (List Nat) := do
  let needle := str "Sec-WebSocket-Key"
  let start := stringsIndex resp needle
  let tail ← sliceStr resp start resp.length
  let end_ := stringsIndex tail (str "\n") + start
  let key ← sliceStr resp (start + needle.length) end_
  pure (stringsTrim key (str " :\n\r"))

/-- The value `reponseKey` of `initHandshake` for a client key. -/
def responseKey (key : List Nat) : List Nat :=
  base64Encode (sha1 (key ++ keyGUID))

/-- The value `response` of `initHandshake` for a response key. -/
def handshakeResponse (reponseKey : List Nat) : List Nat :=
  str "HTTP/1.1 101 Switching Protocols\r\n" ++
    str "Upgrade: websocket\r\n" ++
    str "Connection: Upgrade\r\n" ++
    str "Sec-WebSocket-Accept: " ++ reponseKey ++ str "\r\n\r\n"

/-- The function `initHandshake` of `protocol.go`, given what the one
`conn.Read` into the fresh 1024-byte buffer returns.  The result is the list of
events; the returned `error` is nil whenever the function returns. -/
def initHandshake (s : Server) (rd : ReadResult) : Except Fault (List Event) := do
  let buf := readInto (List.replicate 1024 0) rd.data
  let logged ← (if rd.err then (if s.logger then pure [Event.log] else .error .nilDeref)
    else pure [] : Except Fault (List Event))
  let request := buf
  let key ← getKey request
  let response := handshakeResponse (responseKey key)
  pure (logged ++ [Event.write response])

/-! ## conn.go -/

/-- The method `SendTextMsg`. -/
def SendTextMsg (msg : List Nat) : List Event :=
  let msgBytes := encodeFrames msg
  [Event.write msgBytes]

/-- The method `SendBinMsg`. -/
def SendBinMsg (msg : List Nat) : List Event :=
  let msgBytes := encodeFrames msg
  [Event.write msgBytes]

/-- The method `SendPing`. -/
def SendPing : List Event :=
  [Event.write [0x80 ||| PingFrame, 0x00]]

/-- The method `Close` of the connection `conn`: the events, and the server
after `delete(conn.server.connSet, conn)`. -/
def Close (s : Server) (conn : Nat) : List Event × Server :=
  ([Event.write [0x80 ||| CloseFrame], Event.closeSocket] ++
      callIfSet s.handleDisconnected Event.disconnected,
   { s with connSet := s.connSet.filter (fun c => decide (c ≠ conn)) })

/-- How an iteration of `readLoop` ends: with the next iteration or with `return`. -/
inductive Next where
  | again
  | stop
  deriving DecidableEq, Repr

/-- The state after an iteration of `readLoop`. -/
structure StepOut where
  buf : List Nat
  events : List Event
  next : Next
  deriving DecidableEq, Repr

/-- The branch of `readLoop` for a Text or a Binary frame, `onMsg` being the
callback events for a decoded message: `decodeFrames(buf)` on the whole buffer,
whose capacity is its length. -/
def readLoopDecode (s : Server) (buf : List Nat) (onMsg : List Nat → List Event) :
    Except Fault StepOut :=
  match decodeFrames buf [] with
  | .ok d => .ok ⟨d.mem, onMsg d.payload, .again⟩
  | .error f =>
    if f.isPanic then .error f else .ok ⟨buf, callIfSet s.logger Event.log, .again⟩

/-- One iteration of the loop of `readLoop`, from the buffer `buf0` and given
what `conn.connection.Read(buf)` returns.  The receive from `conn.pingTime` and
the clock behind `conn.latency` are not part of the model. -/
def readLoopStep (s : Server) (buf0 : List Nat) (rd : ReadResult) : Except Fault StepOut :=
  let buf := readInto buf0 rd.data
  let length := rd.data.length
  if rd.err then
    .ok ⟨buf, callIfSet s.logger Event.log ++ [Event.closeSocket] ++
      callIfSet s.handleDisconnected Event.disconnected, .stop⟩
  else if length = 0 then .ok ⟨buf, [], .stop⟩
  else
    let typeFrame := buf.getD 0 0 &&& 0x0F
    if typeFrame = CloseFrame then
      .ok ⟨buf, [Event.write [0x88], Event.closeSocket] ++
        callIfSet s.handleDisconnected Event.disconnected, .stop⟩
    else if typeFrame = TextFrame then
      readLoopDecode s buf (fun msg => callIfSet s.handleTextMsg (Event.textMsg msg))
    else if typeFrame = BinaryFrame then
      readLoopDecode s buf (fun msg => callIfSet s.handleBinMsg (Event.binMsg msg))
    else if typeFrame = PingFrame then
      .ok ⟨buf, [Event.write [0x80 ||| PingFrame, 0x00]], .again⟩
    else if typeFrame = PongFrame then
      .ok ⟨buf, callIfSet s.handlePong Event.pong, .again⟩
    else .ok ⟨buf, [], .again⟩

/-- The loop of `readLoop` from a buffer state, over the results of its
successive reads; when they are used up the loop is blocked in `Read`. -/
def readLoopFrom (s : Server) : List Nat → List ReadResult → Except Fault (List Event)
  | _, [] => .ok []
  | buf, rd :: rest => do
    let out ← readLoopStep s buf rd
    match out.next with
    | .stop => pure out.events
    | .again => do
      let more ← readLoopFrom s out.buf rest
      pure (out.events ++ more)

/-- The function `readLoop`: the loop from a fresh 1024-byte buffer. -/
def readLoop (s : Server) (reads : List ReadResult) : Except Fault (List Event) :=
  readLoopFrom s (List.replicate 1024 0) reads

/-! ## server.go -/

/-- The function `connHandler` for one accepted socket: the handshake, the
connected callback and the read loop.  The heartbeat goroutine, which writes a
ping every two seconds, is not part of the model.  The server is returned as
it is left: no statement of `connHandler` writes to `s.connSet`. -/
def connHandler (s : Server) (handshake : ReadResult) (reads : List ReadResult) :
    Except Fault (List Event × Server) := do
  let hs ← initHandshake s handshake
  let opened := callIfSet s.handleConnected Event.connected
  let rest ← readLoop s reads
  pure (hs ++ opened ++ rest, s)

/-- The events that open or end a connection, each with the connection it is about. -/
inductive Lifecycle where
  /-- The handler `connHandler` completes the handshake of a new connection. -/
  | connect (conn : Nat) (handshake : ReadResult)
  /-- The method `Close` is called on the connection. -/
  | close (conn : Nat)
  /-- The read loop of the connection reads a Close frame. -/
  | peerClose (conn : Nat)
  /-- The read loop of the connection gets a read error. -/
  | readError (conn : Nat)
  deriving DecidableEq, Repr

/-- The server together with the log of the events of every connection. -/
structure World where
  server : Server
  log : List (Nat × Event)
  deriving DecidableEq, Repr

/-- The events of a run of the code tagged with their connection. -/
def World.record (w : World) (conn : Nat) (r : Except Fault (List Event × Server)) : World :=
  match r with
  | .ok (events, s) => ⟨s, w.log ++ events.map (fun e => (conn, e))⟩
  | .error _ => w

/-- The effect of one lifecycle event. -/
def World.step (w : World) : Lifecycle → World
  | .connect conn handshake => w.record conn (connHandler w.server handshake [])
  | .close conn => w.record conn (.ok (Close w.server conn))
  | .peerClose conn =>
    w.record conn ((readLoop w.server [⟨[0x88, 0x00], false⟩]).map (fun ev => (ev, w.server)))
  | .readError conn =>
    w.record conn ((readLoop w.server [⟨[], true⟩]).map (fun ev => (ev, w.server)))

/-- The effect of a sequence of lifecycle events. -/
def World.run (w : World) (events : List Lifecycle) : World :=
  events.foldl World.step w

/-- Whether a connection is live in a log: its connected event is there and
its disconnected event is not. -/
def World.live (w : World) (conn : Nat) : Bool :=
  decide ((conn, Event.connected) ∈ w.log) && !decide ((conn, Event.disconnected) ∈ w.log)

/-! ## Test data -/

/-- The masked client frame of the masking property: byte 0 is `0x81`, byte 1
is `0x80 | n` for `n < 126` and otherwise `0x80 | 126` followed by `n` as two
big-endian bytes, then the four bytes of the key, then `p[i] XOR k[i mod 4]`. -/
def maskedClientFrame (p k : List Nat) : List Nat :=
  let n := p.length
  [0x81] ++ (if n < 126 then [0x80 ||| n] else [0x80 ||| 126] ++ putUint16 n) ++ k ++
    p.enum.map (fun ib => ib.2 ^^^ k.getD (ib.1 % 4) 0)

/-- The opening request of RFC 6455, section 1.2, as far as its key. -/
def sampleRequest : List Nat :=
  str "GET /chat HTTP/1.1\r\nHost: server.example.com\r\nUpgrade: websocket\r\nConnection: Upgrade\r\nSec-WebSocket-Key: dGhlIHNhbXBsZSBub25jZQ==\r\nSec-WebSocket-Version: 13\r\n\r\n"

/-! ## Arithmetic of the length fields -/

theorem wrapInt_of_small (z : Int) (hlo : -(2 ^ 63) ≤ z) (hhi : z < 2 ^ 63) : wrapInt z = z := by
  unfold wrapInt
  rw [Int.emod_eq_of_lt (by omega) (by omega)]
  omega

theorem toInt_of_small (x : Nat) (h : x < 2 ^ 63) : toInt x = (x : Int) := by
  unfold toInt
  have h1 : x % 2 ^ 64 = x := Nat.mod_eq_of_lt (by omega)
  rw [h1, if_pos h]

theorem lengthByte_facts :
    ∀ n, n < 126 → n &&& 0x80 = 0 ∧ n &&& 0x7f = n ∧
      (0x80 ||| n) &&& 0x80 = 0x80 ∧ (0x80 ||| n) &&& 0x7f = n := by
  decide

theorem bigEndian_putUint16 (n : Nat) (h : n < 65536) : bigEndian (putUint16 n) = n := by
  simp only [bigEndian, putUint16, List.foldl]
  omega

theorem slice_middle (a b c : List Nat) (hi : Nat) (h : hi = a.length + b.length) :
    slice (a ++ b ++ c) a.length hi = .ok b := by
  subst h
  simp [slice]

/-! ## The layout of an encoded frame -/

theorem encodeFrames_short (p : List Nat) (h : p.length < 126) :
    encodeFrames p = [0x81, p.length] ++ p := by
  have h1 : p.length % 18446744073709551616 = p.length := Nat.mod_eq_of_lt (by omega)
  have h2 : p.length % 256 = p.length := Nat.mod_eq_of_lt (by omega)
  simp [encodeFrames, h1, h2, h]

theorem encodeFrames_medium (p : List Nat) (h1 : 126 ≤ p.length) (h2 : p.length ≤ 65535) :
    encodeFrames p = [0x81, 126] ++ putUint16 p.length ++ p := by
  have e1 : p.length % 18446744073709551616 = p.length := Nat.mod_eq_of_lt (by omega)
  have e2 : p.length % 65536 = p.length := Nat.mod_eq_of_lt (by omega)
  have e3 : ¬ p.length < 126 := by omega
  have e4 : p.length < 65536 := by omega
  simp [encodeFrames, e1, e2, e3, e4]

theorem encodeFrames_large (p : List Nat) (h1 : 65536 ≤ p.length) (h2 : p.length < 2 ^ 64) :
    encodeFrames p = [0x81] ++ putUint64 p.length ++ p := by
  have e1 : p.length % 18446744073709551616 = p.length := Nat.mod_eq_of_lt (by omega)
  have e3 : ¬ p.length < 126 := by omega
  have e4 : ¬ p.length < 65536 := by omega
  simp [encodeFrames, e1, e3, e4]

theorem encodeFrames_head (p : List Nat) : ∃ rest, encodeFrames p = 0x81 :: rest := by
  simp only [encodeFrames]
  split_ifs <;> exact ⟨_, rfl⟩

/-! ## Unmasking -/

theorem unmaskFrom_involutive (k : List Nat) (x : List Nat) (i : Nat) :
    unmaskFrom k i (unmaskFrom k i x) = x := by
  induction x generalizing i with
  | nil => rfl
  | cons b rest ih => simp [unmaskFrom, ih, Nat.xor_cancel_right]

theorem unmaskFrom_length (k : List Nat) (x : List Nat) (i : Nat) :
    (unmaskFrom k i x).length = x.length := by
  induction x generalizing i with
  | nil => rfl
  | cons b rest ih => simp [unmaskFrom, ih]

theorem map_enumFrom_eq_unmaskFrom (k : List Nat) (p : List Nat) (i : Nat) :
    (p.enumFrom i).map (fun ib => ib.2 ^^^ k.getD (ib.1 % 4) 0) = unmaskFrom k i p := by
  induction p generalizing i with
  | nil => rfl
  | cons b rest ih => simp only [unmaskFrom, List.enumFrom_cons, List.map_cons, ih]

theorem maskedClientFrame_eq (p k : List Nat) :
    maskedClientFrame p k =
      [0x81] ++ (if p.length < 126 then [0x80 ||| p.length] else [0x80 ||| 126] ++
        putUint16 p.length) ++ k ++ unmask p k := by
  simp only [maskedClientFrame, unmask, List.enum, map_enumFrom_eq_unmaskFrom]

/-! ## Decoding -/

theorem int_check (ps n : Nat) (hps : ps ≤ 14) (hn : n < 2 ^ 62) :
    wrapInt (toInt ps + toInt n) = ((ps + n : Nat) : Int) := by
  rw [toInt_of_small ps (by omega), toInt_of_small n (by omega), wrapInt_of_small] <;>
    first | (push_cast; rfl) | (push_cast; omega)

theorem decodeFrames_unmasked_short (b0 : Nat) (p spare : List Nat)
    (h4 : 4 ≤ p.length) (h : p.length < 126) :
    decodeFrames ([b0, p.length] ++ p) spare = .ok ⟨p, [b0, p.length] ++ p ++ spare⟩ := by
  obtain ⟨m0, m1, -, -⟩ := lengthByte_facts p.length h
  have hw := int_check 2 p.length (by omega) (by omega)
  have hm : (2 + p.length) % 2 ^ 64 = 2 + p.length := Nat.mod_eq_of_lt (by omega)
  have hs : slice ([b0, p.length] ++ p ++ spare) 2 (2 + p.length) = .ok p :=
    slice_middle [b0, p.length] p spare _ rfl
  unfold decodeFrames
  simp only [List.length_append, List.length_cons, List.length_nil]
  rw [if_neg (by omega), if_neg (by omega)]
  simp only [List.getD_cons_succ, List.getD_cons_zero, List.cons_append, List.nil_append, m0, m1,
    if_pos h]
  simp only [List.cons_append, List.nil_append, List.append_assoc] at hs
  have hlen : ((0 + 1 + 1 + p.length : Nat) : Int) = ((2 + p.length : Nat) : Int) := by
    rw [show 0 + 1 + 1 + p.length = 2 + p.length by omega]
  simp only [pure, Except.pure, bind, Except.bind, ne_eq, not_true_eq_false, if_false, hw, hm, hs,
    hlen, lt_self_iff_false]

theorem decodeFrames_unmasked_medium (b0 : Nat) (p spare : List Nat)
    (h1 : 126 ≤ p.length) (h2 : p.length ≤ 65535) :
    decodeFrames ([b0, 126] ++ putUint16 p.length ++ p) spare =
      .ok ⟨p, [b0, 126] ++ putUint16 p.length ++ p ++ spare⟩ := by
  have hw := int_check 4 p.length (by omega) (by omega)
  have hm : (4 + p.length) % 2 ^ 64 = 4 + p.length := Nat.mod_eq_of_lt (by omega)
  have hb := bigEndian_putUint16 p.length (by omega)
  have hs := slice_middle ([b0, 126] ++ putUint16 p.length) p spare (4 + p.length)
    (by simp [putUint16])
  have hl := slice_middle [b0, 126] (putUint16 p.length) (p ++ spare) 4 (by simp [putUint16])
  unfold decodeFrames
  simp only [putUint16, List.length_append, List.length_cons, List.length_nil, List.cons_append,
    List.nil_append, List.append_assoc] at hs hl ⊢
  rw [if_neg (by omega), if_neg (by omega)]
  simp only [List.getD_cons_succ, List.getD_cons_zero, show (126 &&& 127) = 126 from rfl,
    show (126 &&& 128) = 0 from rfl, lt_self_iff_false, if_false, if_true]
  simp only [putUint16] at hb
  simp only [pure, Except.pure, bind, Except.bind, ne_eq, not_true_eq_false, if_false, hw, hm, hs,
    hl, hb]
  rw [if_neg (by push_cast; omega)]

theorem decodeFrames_masked_short (b0 : Nat) (p k spare : List Nat)
    (hk : k.length = 4) (h : p.length < 126) :
    decodeFrames ([b0, 0x80 ||| p.length] ++ k ++ unmask p k) spare =
      .ok ⟨p, [b0, 0x80 ||| p.length] ++ k ++ p ++ spare⟩ := by
  obtain ⟨-, -, m0, m1⟩ := lengthByte_facts p.length h
  have hu : (unmask p k).length = p.length := unmaskFrom_length k p 0
  have hw := int_check 6 p.length (by omega) (by omega)
  have hm : (6 + p.length) % 2 ^ 64 = 6 + p.length := Nat.mod_eq_of_lt (by omega)
  have hs := slice_middle ([b0, 0x80 ||| p.length] ++ k) (unmask p k) spare (6 + p.length)
    (by simp [hk, hu])
  have hl := slice_middle [b0, 0x80 ||| p.length] k (unmask p k ++ spare) 6 (by simp [hk])
  have hinv : unmask (unmask p k) k = p := unmaskFrom_involutive k p 0
  have ht : List.take 6 ([b0, 0x80 ||| p.length] ++ k ++ (unmask p k ++ spare)) =
      [b0, 0x80 ||| p.length] ++ k := List.take_left' (by simp [hk])
  have hd : List.drop (6 + p.length) (([b0, 0x80 ||| p.length] ++ k ++ unmask p k) ++ spare) =
      spare := List.drop_left' (by simp [hk, hu]; omega)
  unfold decodeFrames
  simp only [List.length_append, List.length_cons, List.length_nil, List.cons_append,
    List.nil_append, List.append_assoc, hk, hu] at hs hl ht hd ⊢
  rw [if_neg (by omega), if_neg (by omega)]
  simp only [List.getD_cons_succ, List.getD_cons_zero, m0, m1, if_pos h]
  simp only [pure, Except.pure, bind, Except.bind, ne_eq, hw, hm, hs, hl, hinv,
    show ¬ ((128 : Nat) = 0) by decide, not_false_eq_true, if_true, show 2 + 4 = 6 from rfl,
    ht, hd]
  rw [if_neg (by push_cast; omega)]
  rfl

theorem decodeFrames_masked_medium (b0 : Nat) (p k spare : List Nat)
    (hk : k.length = 4) (h1 : 126 ≤ p.length) (h2 : p.length ≤ 65535) :
    decodeFrames ([b0, 0x80 ||| 126] ++ putUint16 p.length ++ k ++ unmask p k) spare =
      .ok ⟨p, [b0, 0x80 ||| 126] ++ putUint16 p.length ++ k ++ p ++ spare⟩ := by
  have hu : (unmask p k).length = p.length := unmaskFrom_length k p 0
  have hw := int_check 8 p.length (by omega) (by omega)
  have hm : (8 + p.length) % 2 ^ 64 = 8 + p.length := Nat.mod_eq_of_lt (by omega)
  have hb := bigEndian_putUint16 p.length (by omega)
  have hs := slice_middle ([b0, 0x80 ||| 126] ++ putUint16 p.length ++ k) (unmask p k) spare
    (8 + p.length) (by simp [hk, hu, putUint16])
  have hl := slice_middle ([b0, 0x80 ||| 126] ++ putUint16 p.length) k (unmask p k ++ spare) 8
    (by simp [hk, putUint16])
  have hx := slice_middle [b0, 0x80 ||| 126] (putUint16 p.length) (k ++ unmask p k ++ spare) 4
    (by simp [putUint16])
  have hinv : unmask (unmask p k) k = p := unmaskFrom_involutive k p 0
  have ht : List.take 8 ([b0, 0x80 ||| 126] ++ putUint16 p.length ++ k ++ (unmask p k ++ spare)) =
      [b0, 0x80 ||| 126] ++ putUint16 p.length ++ k := List.take_left' (by simp [hk, putUint16])
  have hd : List.drop (8 + p.length)
      (([b0, 0x80 ||| 126] ++ putUint16 p.length ++ k ++ unmask p k) ++ spare) = spare :=
    List.drop_left' (by simp [hk, hu, putUint16]; omega)
  unfold decodeFrames
  simp only [putUint16, List.length_append, List.length_cons, List.length_nil, List.cons_append,
    List.nil_append, List.append_assoc, hk, hu] at hs hl hx ht hd hb ⊢
  rw [if_neg (by omega), if_neg (by omega)]
  simp only [List.getD_cons_succ, List.getD_cons_zero, show ((128 ||| 126) &&& 127) = 126 from rfl,
    show ((128 ||| 126) &&& 128) = 128 from rfl, lt_self_iff_false, if_false, if_true]
  simp only [pure, Except.pure, bind, Except.bind, ne_eq, hw, hm, hs, hl, hx, hb, hinv,
    show ¬ ((128 : Nat) = 0) by decide, not_false_eq_true, if_true, show 2 + 2 + 4 = 8 from rfl,
    show 2 + 2 = 4 from rfl, ht, hd]
  rw [if_neg (by push_cast; omega)]
  rfl

/-! ## The read loop by frame type -/

theorem readLoopStep_text (s : Server) (buf0 rest : List Nat) (b : Nat)
    (h : b &&& 0x0F = TextFrame) :
    readLoopStep s buf0 ⟨b :: rest, false⟩ =
      readLoopDecode s (readInto buf0 (b :: rest))
        (fun msg => callIfSet s.handleTextMsg (Event.textMsg msg)) := by
  have h0 : (readInto buf0 (b :: rest)).getD 0 0 = b := rfl
  simp only [readLoopStep, h0, h]
  rw [if_neg (by decide), if_neg (by simp), if_neg (by decide), if_pos trivial]

theorem readLoopStep_ping (s : Server) (buf0 rest : List Nat) (b : Nat)
    (h : b &&& 0x0F = PingFrame) :
    readLoopStep s buf0 ⟨b :: rest, false⟩ =
      .ok ⟨readInto buf0 (b :: rest), [Event.write [0x89, 0x00]], .again⟩ := by
  have h0 : (readInto buf0 (b :: rest)).getD 0 0 = b := rfl
  simp only [readLoopStep, h0, h]
  rw [if_neg (by decide), if_neg (by simp), if_neg (by decide), if_neg (by decide),
    if_neg (by decide), if_pos trivial]
  rfl

/-! ## Round trips through the codec -/

theorem roundtrip_unmasked (p spare : List Nat) (h4 : 4 ≤ p.length) (h : p.length ≤ 65535) :
    decodeFrames (encodeFrames p) spare = .ok ⟨p, encodeFrames p ++ spare⟩ := by
  by_cases hs : p.length < 126
  · rw [encodeFrames_short p hs]
    exact decodeFrames_unmasked_short _ p spare h4 hs
  · rw [encodeFrames_medium p (by omega) h]
    exact decodeFrames_unmasked_medium _ p spare (by omega) h

theorem roundtrip_masked (p k spare : List Nat) (hk : k.length = 4) (h : p.length ≤ 65535) :
    (decodeFrames (maskedClientFrame p k) spare).map Decoded.payload = .ok p := by
  rw [maskedClientFrame_eq]
  by_cases hs : p.length < 126
  · rw [if_pos hs]
    have := decodeFrames_masked_short 0x81 p k spare hk hs
    simp only [List.cons_append, List.nil_append, List.append_assoc] at this ⊢
    rw [this]
    rfl
  · rw [if_neg hs]
    have := decodeFrames_masked_medium 0x81 p k spare hk (by omega) h
    simp only [List.cons_append, List.nil_append, List.append_assoc] at this ⊢
    rw [this]
    rfl

theorem frame_header_bits (p : List Nat) (h : p.length ≤ 65535) :
    (encodeFrames p).getD 0 0 &&& 0x0F = TextFrame ∧ (encodeFrames p).getD 1 0 &&& 0x80 = 0 := by
  by_cases hs : p.length < 126
  · rw [encodeFrames_short p hs]
    exact ⟨show (129 : Nat) &&& 15 = TextFrame by decide, (lengthByte_facts _ hs).1⟩
  · rw [encodeFrames_medium p (by omega) h]
    exact ⟨show (129 : Nat) &&& 15 = TextFrame by decide, show (126 : Nat) &&& 128 = 0 by decide⟩

/-- C1, as amended.  For every payload of length 0, 10, 125, 126 or 65535 the
frame made by `encodeFrames` has opcode Text in the low four bits of byte 0 and
a clear mask bit in byte 1.  For the lengths 10, 125, 126 and 65535,
`decodeFrames` applied to that frame succeeds and returns the payload; for the
length 0 it returns the error "No payload in frames". -/
theorem encode_decode_roundtrip (p spare : List Nat)
    (hlen : p.length = 0 ∨ p.length = 10 ∨ p.length = 125 ∨ p.length = 126 ∨ p.length = 65535) :
    ((encodeFrames p).getD 0 0 &&& 0x0F = TextFrame ∧ (encodeFrames p).getD 1 0 &&& 0x80 = 0) ∧
    (p.length ≠ 0 → (decodeFrames (encodeFrames p) spare).map Decoded.payload = .ok p) ∧
    (p.length = 0 → decodeFrames (encodeFrames p) spare = .error Fault.noPayload) := by
  refine ⟨frame_header_bits p (by omega), fun h0 => ?_, fun h0 => ?_⟩
  · rw [roundtrip_unmasked p spare (by omega) (by omega)]
    rfl
  · rw [List.length_eq_zero] at h0
    subst h0
    rfl

theorem encode_decode_roundtrip_witness :
    ((List.replicate 10 7).length = 0 ∨ (List.replicate 10 7).length = 10 ∨
      (List.replicate 10 7).length = 125 ∨ (List.replicate 10 7).length = 126 ∨
      (List.replicate 10 7).length = 65535) ∧
    (decodeFrames (encodeFrames (List.replicate 10 7)) [3]).map Decoded.payload =
      .ok (List.replicate 10 7) :=
  ⟨by decide, (encode_decode_roundtrip (List.replicate 10 7) [3] (by decide)).2.1 (by decide)⟩

/-- C1, counterexample.  The frame of the empty payload is two bytes long and
`decodeFrames` rejects it: a buffer shorter than 3 bytes is an error. -/
theorem roundtrip_fails_on_empty_payload :
    ([] : List Nat).length = 0 ∧ encodeFrames [] = [0x81, 0x00] ∧
      decodeFrames (encodeFrames []) [] = .error Fault.noPayload := by
  decide

/-- C2, at the failing input.  A payload of 65536 bytes is encoded as byte 0,
the eight bytes of the length and the payload: the byte 127 is not written, the
frame is `n + 9` bytes long and its byte 1 is the first byte of the length, 0. -/
theorem encodeFrames_omits_marker_127 :
    encodeFrames (List.replicate 65536 0) =
      [0x81] ++ [0, 0, 0, 0, 0, 1, 0, 0] ++ List.replicate 65536 0 ∧
    (encodeFrames (List.replicate 65536 0)).length = 65536 + 9 ∧
    (encodeFrames (List.replicate 65536 0)).getD 1 0 = 0 := by
  have hl : (List.replicate 65536 (0 : Nat)).length = 65536 := List.length_replicate _ _
  have hp : putUint64 65536 = [0, 0, 0, 0, 0, 1, 0, 0] := by decide
  have h := encodeFrames_large (List.replicate 65536 0) (by rw [hl]) (by rw [hl]; norm_num)
  rw [h, hl, hp]
  refine ⟨rfl, ?_, ?_⟩
  · simp only [List.length_append, List.length_cons, List.length_nil, hl]
  · simp only [List.cons_append, List.nil_append, List.getD_cons_succ, List.getD_cons_zero]

/-- C3.  For every 4-byte key `k` and every payload `p` of at most 65535 bytes,
`decodeFrames` applied to the masked client frame of `p` and `k` succeeds and
returns `p`; and unmasking twice with the same key gives back the bytes. -/
theorem masked_frame_decodes (k p spare : List Nat) (hk : k.length = 4)
    (hn : p.length ≤ 65535) :
    (decodeFrames (maskedClientFrame p k) spare).map Decoded.payload = .ok p ∧
    ∀ x : List Nat, unmask (unmask x k) k = x :=
  ⟨roundtrip_masked p k spare hk hn, fun x => unmaskFrom_involutive k x 0⟩

theorem masked_frame_decodes_witness :
    [0x37, 0xfa, 0x21, 0x3d].length = 4 ∧ [0x48, 0x65, 0x6c, 0x6c, 0x6f].length ≤ 65535 ∧
    maskedClientFrame [0x48, 0x65, 0x6c, 0x6c, 0x6f] [0x37, 0xfa, 0x21, 0x3d] =
      [0x81, 0x85, 0x37, 0xfa, 0x21, 0x3d, 0x7f, 0x9f, 0x4d, 0x51, 0x58] ∧
    (decodeFrames (maskedClientFrame [0x48, 0x65, 0x6c, 0x6c, 0x6f] [0x37, 0xfa, 0x21, 0x3d])
      []).map Decoded.payload = .ok [0x48, 0x65, 0x6c, 0x6c, 0x6f] :=
  ⟨by decide, by decide, by decide,
    (masked_frame_decodes [0x37, 0xfa, 0x21, 0x3d] [0x48, 0x65, 0x6c, 0x6c, 0x6f] []
      (by decide) (by decide)).1⟩

set_option maxRecDepth 100000 in
/-- C4, at the failing inputs.  A frame that declares the 64-bit payload length
`2 ^ 64 - 1` passes the length check, because `int(length)` is `-1`, and
`decodeFrames` then panics in `frames[10:9]`, whatever the capacity of the
buffer; so does the read loop on a read of these ten bytes.  A six-byte buffer
of capacity six that declares a 16-bit length and a mask key panics in
`frames[4:8]`. -/
theorem decodeFrames_panics_on_wrapped_length (spare : List Nat) (s : Server) :
    decodeFrames [0x81, 0x7f, 0xff, 0xff, 0xff, 0xff, 0xff, 0xff, 0xff, 0xff] spare =
      .error Fault.sliceBounds ∧
    Fault.sliceBounds.isPanic = true ∧
    readLoop s [⟨[0x81, 0x7f, 0xff, 0xff, 0xff, 0xff, 0xff, 0xff, 0xff, 0xff], false⟩] =
      .error Fault.sliceBounds ∧
    decodeFrames [0x81, 0xfe, 0x00, 0x01, 0x09, 0x09] [] = .error Fault.sliceBounds := by
  refine ⟨?_, rfl, ?_, by decide⟩
  · have hsl := slice_middle [0x81, 0x7f] [0xff, 0xff, 0xff, 0xff, 0xff, 0xff, 0xff, 0xff] spare 10 rfl
    have hbe : bigEndian [0xff, 0xff, 0xff, 0xff, 0xff, 0xff, 0xff, 0xff] = 2 ^ 64 - 1 := by decide
    have hw : wrapInt (toInt 10 + toInt (2 ^ 64 - 1)) = 9 := by decide
    have hs2 : ∀ mem : List Nat, slice mem 10 ((10 + (2 ^ 64 - 1)) % 2 ^ 64) = .error .sliceBounds := by
      intro mem
      simp [slice]
    simp only [List.cons_append, List.nil_append, List.length_cons, List.length_nil] at hsl
    simp only [decodeFrames, List.length_cons, List.length_nil, List.getD_cons_succ,
      List.getD_cons_zero, List.cons_append, List.nil_append,
      show ¬ (0 + 1 + 1 + 1 + 1 + 1 + 1 + 1 + 1 + 1 + 1 < 3) by decide,
      show ¬ (0 + 1 + 1 + 1 + 1 + 1 + 1 + 1 + 1 + 1 + 1 < 2 + 4) by decide,
      show (127 &&& 127) = 127 from rfl, show (127 &&& 128) = 0 from rfl,
      show ¬ (127 < 126) by decide, show ¬ (127 = 126) by decide, if_false, if_true,
      ne_eq, not_true_eq_false, hsl, hbe, show 2 + 8 = 10 from rfl,
      pure, Except.pure, bind, Except.bind, hw, hs2]
    rw [if_neg (by norm_num)]
  · have hd : decodeFrames (readInto (List.replicate 1024 0)
        [0x81, 0x7f, 0xff, 0xff, 0xff, 0xff, 0xff, 0xff, 0xff, 0xff]) [] =
        .error Fault.sliceBounds := by decide
    simp only [readLoop, readLoopFrom]
    rw [readLoopStep_text s _ _ _ (by decide)]
    simp only [readLoopDecode, hd]
    rfl

/-! ## strings.Index and strings.Trim -/

theorem stringsIndexFrom_found (sub pre rest : List Nat) (i : Nat)
    (hfirst : ∀ j, j < pre.length → ((pre ++ rest).drop j).take sub.length ≠ sub)
    (hhere : rest.take sub.length = sub) :
    stringsIndexFrom sub (pre ++ rest) i = ((i + pre.length : Nat) : Int) := by
  induction pre generalizing i with
  | nil =>
    cases rest with
    | nil =>
      have hsub : sub = [] := by simpa using hhere.symm
      simp [stringsIndexFrom, hsub]
    | cons c t => simp [stringsIndexFrom, hhere]
  | cons a pre ih =>
    have h0 := hfirst 0 (by simp)
    simp only [List.drop_zero, List.cons_append] at h0
    have hrec := ih (i + 1) (fun j hj => by
      have := hfirst (j + 1) (by simpa using hj)
      simpa using this)
    rw [List.cons_append, stringsIndexFrom, if_neg h0, hrec, List.length_cons]
    congr 1
    omega

theorem stringsIndexFrom_absent (sub s : List Nat) (i : Nat)
    (habs : ∀ j, j ≤ s.length → (s.drop j).take sub.length ≠ sub) :
    stringsIndexFrom sub s i = -1 := by
  induction s generalizing i with
  | nil =>
    have h0 := habs 0 (by simp)
    have hsub : ¬ sub = [] := fun h => h0 (by simp [h])
    simp [stringsIndexFrom, hsub]
  | cons a s ih =>
    have h0 := habs 0 (by simp)
    simp only [List.drop_zero] at h0
    have hrec := ih (i + 1) (fun j hj => by
      have := habs (j + 1) (by simpa using hj)
      simpa using this)
    rw [stringsIndexFrom, if_neg h0, hrec]

theorem stringsIndexFrom_byte (c : Nat) (pre rest : List Nat) (i : Nat) (h : c ∉ pre) :
    stringsIndexFrom [c] (pre ++ c :: rest) i = ((i + pre.length : Nat) : Int) := by
  induction pre generalizing i with
  | nil => simp [stringsIndexFrom]
  | cons a pre ih =>
    have ha : ¬ a = c := fun e => h (by simp [e])
    have hp : c ∉ pre := fun e => h (by simp [e])
    have hne : ¬ List.take [c].length (a :: (pre ++ c :: rest)) = [c] := by
      simp [ha]
    rw [List.cons_append, stringsIndexFrom, if_neg hne, ih (i + 1) hp, List.length_cons]
    congr 1
    omega

theorem sliceStr_middle (a b c : List Nat) (lo hi : Int) (hlo : lo = (a.length : Int))
    (hhi : hi = (a.length : Int) + (b.length : Int)) :
    sliceStr (a ++ b ++ c) lo hi = .ok b := by
  subst hlo hhi
  have h : (0 : Int) ≤ (a.length : Int) ∧ (a.length : Int) ≤ (a.length : Int) + (b.length : Int) ∧
      (a.length : Int) + (b.length : Int) ≤ ((a ++ b ++ c).length : Int) := by
    refine ⟨by omega, by omega, ?_⟩
    simp only [List.length_append]
    push_cast
    omega
  have e : ((a.length : Int) + (b.length : Int)).toNat - (a.length : Int).toNat = b.length := by
    omega
  simp only [sliceStr, if_pos h]
  rw [e, Int.toNat_ofNat]
  simp

theorem stringsTrim_key (K : List Nat)
    (hhead : ∀ c, K.head? = some c → c ∉ [32, 58, 10, 13])
    (hlast : ∀ c, K.getLast? = some c → c ∉ [32, 58, 10, 13]) :
    stringsTrim ([58, 32] ++ K ++ [13]) [32, 58, 10, 13] = K := by
  cases K with
  | nil => decide
  | cons k K =>
    have hk : k ∉ [32, 58, 10, 13] := hhead k rfl
    have h1 : List.dropWhile (fun c => decide (c ∈ [32, 58, 10, 13])) ([58, 32] ++ (k :: K) ++ [13]) =
        (k :: K) ++ [13] := by
      simp [List.dropWhile, hk]
    have h2 : ∀ r : List Nat, (∀ c, r.head? = some c → c ∉ [32, 58, 10, 13]) →
        List.dropWhile (fun c => decide (c ∈ [32, 58, 10, 13])) r = r := by
      intro r hr
      cases r with
      | nil => rfl
      | cons x xs =>
        have hx : x ∉ [32, 58, 10, 13] := hr x rfl
        simp [List.dropWhile, hx]
    have h3 : ((k :: K) ++ [13]).reverse = 13 :: (k :: K).reverse := by simp
    have h4 : List.dropWhile (fun c => decide (c ∈ [32, 58, 10, 13])) (13 :: (k :: K).reverse) =
        (k :: K).reverse := by
      rw [List.dropWhile_cons, if_pos (by decide)]
      exact h2 _ (fun c hc => hlast c (by rw [List.getLast?_eq_head?_reverse]; exact hc))
    rw [stringsTrim, h1, h3, h4, List.reverse_reverse]


/-! ## The handshake -/

theorem getKey_of_line (pre K post : List Nat)
    (hfirst : ∀ i, i < pre.length →
      ¬ str "Sec-WebSocket-Key" <+:
        (pre ++ str "Sec-WebSocket-Key: " ++ K ++ str "\r\n" ++ post).drop i)
    (hline : 10 ∉ K)
    (hhead : ∀ c, K.head? = some c → c ∉ str " :\n\r")
    (hlast : ∀ c, K.getLast? = some c → c ∉ str " :\n\r") :
    getKey (pre ++ str "Sec-WebSocket-Key: " ++ K ++ str "\r\n" ++ post) = .ok K := by
  have c1 : str "Sec-WebSocket-Key: " = str "Sec-WebSocket-Key" ++ [58, 32] := by decide
  have c2 : str "\r\n" = [13, 10] := by decide
  have c3 : str " :\n\r" = [32, 58, 10, 13] := by decide
  have c4 : str "\n" = [10] := by decide
  have c5 : (str "Sec-WebSocket-Key").length = 17 := by decide
  have c6 : 10 ∉ str "Sec-WebSocket-Key" := by decide
  rw [c3] at hhead hlast
  rw [c1, c2] at hfirst ⊢
  unfold getKey
  rw [c3, c4]
  generalize str "Sec-WebSocket-Key" = needle at *
  have hline2 : 10 ∉ needle ++ [58, 32] ++ K ++ [13] := by
    simp only [List.mem_append, List.mem_cons, List.mem_singleton, List.not_mem_nil]
    simp [c6, hline]
  have hresp : pre ++ (needle ++ [58, 32]) ++ K ++ [13, 10] ++ post =
      pre ++ ((needle ++ [58, 32] ++ K ++ [13]) ++ 10 :: post) := by simp
  have hresp2 : pre ++ (needle ++ [58, 32]) ++ K ++ [13, 10] ++ post =
      pre ++ ((needle ++ [58, 32] ++ K ++ [13]) ++ 10 :: post) ++ [] := by simp
  have hresp3 : pre ++ (needle ++ [58, 32]) ++ K ++ [13, 10] ++ post =
      (pre ++ needle) ++ ([58, 32] ++ K ++ [13]) ++ 10 :: post := by simp
  have hstart : stringsIndex (pre ++ (needle ++ [58, 32]) ++ K ++ [13, 10] ++ post) needle =
      (pre.length : Int) := by
    rw [stringsIndex, hresp, stringsIndexFrom_found needle pre _ 0 ?_ ?_]
    · simp
    · intro j hj hEq
      apply hfirst j hj
      rw [hresp, List.prefix_iff_eq_take]
      exact hEq.symm
    · simp
  have htail : sliceStr (pre ++ (needle ++ [58, 32]) ++ K ++ [13, 10] ++ post) (pre.length : Int)
      ((pre ++ (needle ++ [58, 32]) ++ K ++ [13, 10] ++ post).length : Int) =
      .ok ((needle ++ [58, 32] ++ K ++ [13]) ++ 10 :: post) := by
    rw [hresp2]
    apply sliceStr_middle _ _ _ _ _ rfl
    simp only [List.length_append, List.length_cons, List.length_nil]
    push_cast
    omega
  have hnl : stringsIndex ((needle ++ [58, 32] ++ K ++ [13]) ++ 10 :: post) [10] =
      ((needle ++ [58, 32] ++ K ++ [13]).length : Int) := by
    rw [stringsIndex, stringsIndexFrom_byte 10 _ post 0 hline2]
    simp
  have hkey : sliceStr (pre ++ (needle ++ [58, 32]) ++ K ++ [13, 10] ++ post)
      ((pre.length : Int) + (needle.length : Int))
      (((needle ++ [58, 32] ++ K ++ [13]).length : Int) + (pre.length : Int)) =
      .ok ([58, 32] ++ K ++ [13]) := by
    rw [hresp3]
    apply sliceStr_middle
    · simp
    · simp only [List.length_append, List.length_cons, List.length_nil]
      push_cast
      omega
  simp only [hstart, htail, hnl, hkey, bind, Except.bind, pure, Except.pure,
    stringsTrim_key K hhead hlast]

set_option maxRecDepth 1000000 in
/-- C5.  For every request text whose first occurrence of `Sec-WebSocket-Key`
is the header line `Sec-WebSocket-Key: K` ended by CR LF (so `K` holds no line
feed), where `K` neither begins nor ends with a space, colon, CR or LF,
`getKey` returns exactly `K`; when that text is what the handshake read into its
buffer, `initHandshake` writes exactly the 101 response whose accept value is
`base64(SHA-1(K ++ GUID))`; and for the key of RFC 6455 that value is
`s3pPLMBiTxaQ9kYGzzhZRbK+xOo=`. -/
theorem handshake_accept_key (s : Server) (rd : ReadResult) (pre K post : List Nat)
    (hreq : readInto (List.replicate 1024 0) rd.data =
      pre ++ str "Sec-WebSocket-Key: " ++ K ++ str "\r\n" ++ post)
    (hfirst : ∀ i, i < pre.length →
      ¬ str "Sec-WebSocket-Key" <+:
        (pre ++ str "Sec-WebSocket-Key: " ++ K ++ str "\r\n" ++ post).drop i)
    (hline : 10 ∉ K)
    (hhead : ∀ c, K.head? = some c → c ∉ str " :\n\r")
    (hlast : ∀ c, K.getLast? = some c → c ∉ str " :\n\r")
    (hlog : rd.err = true → s.logger = true) :
    getKey (pre ++ str "Sec-WebSocket-Key: " ++ K ++ str "\r\n" ++ post) = .ok K ∧
    (initHandshake s rd).map writesOf =
      .ok [str "HTTP/1.1 101 Switching Protocols\r\nUpgrade: websocket\r\nConnection: Upgrade\r\nSec-WebSocket-Accept: " ++
        base64Encode (sha1 (K ++ str "258EAFA5-E914-47DA-95CA-C5AB0DC85B11")) ++ str "\r\n\r\n"] ∧
    base64Encode (sha1 (str "dGhlIHNhbXBsZSBub25jZQ==" ++
      str "258EAFA5-E914-47DA-95CA-C5AB0DC85B11")) = str "s3pPLMBiTxaQ9kYGzzhZRbK+xOo=" := by
  have hk := getKey_of_line pre K post hfirst hline hhead hlast
  have hresp : ∀ a : List Nat, handshakeResponse a =
      str "HTTP/1.1 101 Switching Protocols\r\nUpgrade: websocket\r\nConnection: Upgrade\r\nSec-WebSocket-Accept: " ++
        a ++ str "\r\n\r\n" := by
    intro a
    have e : str "HTTP/1.1 101 Switching Protocols\r\n" ++ str "Upgrade: websocket\r\n" ++
        str "Connection: Upgrade\r\n" ++ str "Sec-WebSocket-Accept: " =
        str "HTTP/1.1 101 Switching Protocols\r\nUpgrade: websocket\r\nConnection: Upgrade\r\nSec-WebSocket-Accept: " := by
      decide
    rw [handshakeResponse, e]
  refine ⟨hk, ?_, by decide⟩
  unfold initHandshake
  simp only [hreq, hk, bind, Except.bind, pure, Except.pure, hresp, responseKey, keyGUID]
  cases herr : rd.err with
  | false => rfl
  | true =>
    rw [hlog herr]
    rfl

set_option maxRecDepth 100000 in
theorem handshake_accept_key_witness :
    (initHandshake (CreateServer true) ⟨sampleRequest, false⟩).map writesOf =
      .ok [str "HTTP/1.1 101 Switching Protocols\r\nUpgrade: websocket\r\nConnection: Upgrade\r\nSec-WebSocket-Accept: " ++
        base64Encode (sha1 (str "dGhlIHNhbXBsZSBub25jZQ==" ++
          str "258EAFA5-E914-47DA-95CA-C5AB0DC85B11")) ++ str "\r\n\r\n"] :=
  (handshake_accept_key (CreateServer true) ⟨sampleRequest, false⟩
    (str "GET /chat HTTP/1.1\r\nHost: server.example.com\r\nUpgrade: websocket\r\nConnection: Upgrade\r\n")
    (str "dGhlIHNhbXBsZSBub25jZQ==")
    (str "Sec-WebSocket-Version: 13\r\n\r\n" ++ List.replicate 863 0)
    (by decide) (by decide) (by decide) (by decide) (by decide) (by decide)).2.1


/-- C6, for every payload.  Both `SendBinMsg` and `SendTextMsg` write a frame
whose byte 0 is `0x81`, which is `0x80 | Text`; `0x80 | Binary` is `0x82`.  At
the payload 1, 2, 3, 4, 5 `SendBinMsg` writes `0x81, 5, 1, 2, 3, 4, 5`. -/
theorem SendBinMsg_writes_text_opcode (msg : List Nat) :
    (∃ rest, SendBinMsg msg = [Event.write (0x81 :: rest)]) ∧
    (∃ rest, SendTextMsg msg = [Event.write (0x81 :: rest)]) ∧
    (0x80 ||| TextFrame = 0x81 ∧ 0x80 ||| BinaryFrame = 0x82) ∧
    SendBinMsg [1, 2, 3, 4, 5] = [Event.write [0x81, 5, 1, 2, 3, 4, 5]] := by
  obtain ⟨rest, h⟩ := encodeFrames_head msg
  refine ⟨⟨rest, ?_⟩, ⟨rest, ?_⟩, by decide, by decide⟩
  · simp only [SendBinMsg, h]
  · simp only [SendTextMsg, h]

/-- C7, for every read of a Ping frame `0x89, ...`.  The iteration of the read
loop writes the two bytes `0x89, 0x00`, a Ping frame, where `0x80 | Pong` is
`0x8A`; it calls no callback and goes on to the next read. -/
theorem readLoop_answers_ping_with_ping (s : Server) (buf rest : List Nat) :
    readLoopStep s buf ⟨0x89 :: rest, false⟩ =
      .ok ⟨readInto buf (0x89 :: rest), [Event.write [0x89, 0x00]], Next.again⟩ ∧
    0x89 &&& 0x0F = PingFrame ∧ 0x80 ||| PingFrame = 0x89 ∧ 0x80 ||| PongFrame = 0x8A :=
  ⟨readLoopStep_ping s buf rest 0x89 (by decide), by decide, by decide, by decide⟩

/-! ## The registry -/

theorem record_connSet (w : World) (conn : Nat) (r : Except Fault (List Event × Server))
    (hw : w.server.connSet = []) (hr : ∀ ev s, r = .ok (ev, s) → s.connSet = []) :
    (w.record conn r).server.connSet = [] := by
  cases r with
  | error f => exact hw
  | ok p => exact hr p.1 p.2 rfl

theorem connHandler_server (s : Server) (handshake : ReadResult) (reads : List ReadResult)
    (ev : List Event) (t : Server) (h : connHandler s handshake reads = .ok (ev, t)) : t = s := by
  unfold connHandler at h
  cases h1 : initHandshake s handshake with
  | error f => simp [h1, bind, Except.bind] at h
  | ok a =>
    cases h2 : readLoop s reads with
    | error f => simp [h1, h2, bind, Except.bind] at h
    | ok b =>
      simp only [h1, h2, bind, Except.bind, pure, Except.pure, Except.ok.injEq, Prod.mk.injEq] at h
      exact h.2.symm

theorem step_connSet (w : World) (e : Lifecycle) (hw : w.server.connSet = []) :
    (w.step e).server.connSet = [] := by
  cases e with
  | connect conn handshake =>
    refine record_connSet w conn _ hw (fun ev s h => ?_)
    rw [connHandler_server _ _ _ _ _ h]
    exact hw
  | close conn =>
    refine record_connSet w conn _ hw (fun ev s h => ?_)
    simp only [Close, Except.ok.injEq, Prod.mk.injEq] at h
    rw [← h.2]
    simp [hw]
  | peerClose conn =>
    refine record_connSet w conn _ hw (fun ev s h => ?_)
    cases h1 : readLoop w.server [⟨[0x88, 0x00], false⟩] with
    | error f => simp [h1, Except.map] at h
    | ok b =>
      simp only [h1, Except.map, Except.ok.injEq, Prod.mk.injEq] at h
      rw [← h.2]
      exact hw
  | readError conn =>
    refine record_connSet w conn _ hw (fun ev s h => ?_)
    cases h1 : readLoop w.server [⟨[], true⟩] with
    | error f => simp [h1, Except.map] at h
    | ok b =>
      simp only [h1, Except.map, Except.ok.injEq, Prod.mk.injEq] at h
      rw [← h.2]
      exact hw

theorem run_connSet (w : World) (events : List Lifecycle) (hw : w.server.connSet = []) :
    (w.run events).server.connSet = [] := by
  induction events generalizing w with
  | nil => exact hw
  | cons e rest ih => exact ih (w.step e) (step_connSet w e hw)

set_option maxRecDepth 1000000 in
/-- C8, for every sequence of events and at the failing input.  From a server
whose `connSet` is empty, as `CreateServer` makes it, `connSet` is empty after
every sequence of connect and disconnect events: nothing is ever added to it.
After the one event of a completed handshake of connection 1 the connected
callback has run and the disconnected callback has not, and connection 1 is
not in `connSet`. -/
theorem connSet_never_holds_a_connection (s : Server) (events : List Lifecycle) :
    (World.run ⟨{ s with connSet := [] }, []⟩ events).server.connSet = [] ∧
    (World.run ⟨HandleDisconnected (HandleConnected (CreateServer true) true) true, []⟩
      [Lifecycle.connect 1 ⟨sampleRequest, false⟩]).live 1 = true ∧
    1 ∉ (World.run ⟨HandleDisconnected (HandleConnected (CreateServer true) true) true, []⟩
      [Lifecycle.connect 1 ⟨sampleRequest, false⟩]).server.connSet :=
  ⟨run_connSet _ events rfl, by decide, by decide⟩

/-! ## A request without the key -/

theorem no_key_of_no_capital_S (resp : List Nat) (h : 83 ∉ resp) :
    ∀ j, j ≤ resp.length → ¬ str "Sec-WebSocket-Key" <+: resp.drop j := by
  intro j _ hp
  have hn : str "Sec-WebSocket-Key" = 83 :: str "ec-WebSocket-Key" := by decide
  rw [hn] at hp
  exact h (List.mem_of_mem_drop (hp.subset (List.mem_cons_self _ _)))

/-- C9, for every request without the key.  When `Sec-WebSocket-Key` occurs
nowhere in the request text that the handshake read into its buffer,
`strings.Index` gives `-1` and `getKey` panics in `resp[start:]`; so
`initHandshake` panics and writes no response. -/
theorem getKey_panics_without_key (s : Server) (rd : ReadResult)
    (habs : ∀ j, j ≤ (readInto (List.replicate 1024 0) rd.data).length →
      ¬ str "Sec-WebSocket-Key" <+: (readInto (List.replicate 1024 0) rd.data).drop j) :
    stringsIndex (readInto (List.replicate 1024 0) rd.data) (str "Sec-WebSocket-Key") = -1 ∧
    getKey (readInto (List.replicate 1024 0) rd.data) = .error Fault.sliceBounds ∧
    ∃ f, initHandshake s rd = .error f ∧ f.isPanic = true := by
  have hstart : stringsIndex (readInto (List.replicate 1024 0) rd.data)
      (str "Sec-WebSocket-Key") = -1 := by
    apply stringsIndexFrom_absent
    intro j hj hEq
    apply habs j hj
    rw [List.prefix_iff_eq_take]
    exact hEq.symm
  have hg : getKey (readInto (List.replicate 1024 0) rd.data) = .error Fault.sliceBounds := by
    unfold getKey
    simp only [hstart, sliceStr]
    rfl
  refine ⟨hstart, hg, ?_⟩
  unfold initHandshake
  cases rd.err with
  | false => exact ⟨Fault.sliceBounds, by simp only [hg]; rfl, rfl⟩
  | true =>
    cases s.logger with
    | false => exact ⟨Fault.nilDeref, rfl, rfl⟩
    | true => exact ⟨Fault.sliceBounds, by simp only [hg]; rfl, rfl⟩

set_option maxRecDepth 1000000 in
theorem getKey_panics_without_key_witness :
    getKey (readInto (List.replicate 1024 0)
      (str "GET / HTTP/1.1\r\nHost: example.com\r\n\r\n")) = .error Fault.sliceBounds ∧
    ∃ f, initHandshake (CreateServer true)
      ⟨str "GET / HTTP/1.1\r\nHost: example.com\r\n\r\n", false⟩ = .error f ∧
      f.isPanic = true :=
  (getKey_panics_without_key (CreateServer true)
    ⟨str "GET / HTTP/1.1\r\nHost: example.com\r\n\r\n", false⟩
    (no_key_of_no_capital_S _ (by decide))).2

set_option maxRecDepth 1000000 in
/-- C10, at the failing input.  After a read of a whole masked frame of the
text `hello`, a read delivers 7 bytes: a header that declares 5 payload bytes,
a mask key of zeros and the one payload byte `J`.  The read loop logs nothing
and calls the text callback with `Jello`: one byte of this read and four bytes
that the earlier read left in the buffer. -/
theorem readLoop_delivers_stale_bytes :
    readLoop (HandleTextMsg (CreateServer true) true)
      [⟨maskedClientFrame (str "hello") [1, 2, 3, 4], false⟩,
       ⟨[0x81, 0x85, 0, 0, 0, 0, 0x4a], false⟩] =
      .ok [Event.textMsg (str "hello"), Event.textMsg (str "Jello")] := by
  decide

end Websocket
